import Mathlib

/-!
Verification development for the persistent memory subsystem of the
ai-frontier-insight repository.  The definitions below are a shallow
embedding of `src/memory/manager.py` (weekly signal ledger, trend ledger,
prediction log) and `src/utils/draft.py` (draft lifecycle store).  Python
dicts with string keys are modelled as association lists preserving
insertion order (Python 3.7+ dict semantics); JSON file contents are
modelled as parsed records or an explicit `corrupt` marker; the wall
clock (dates, ISO week ids, timestamps, sweep cutoffs) is passed in as
explicit string parameters, mirroring the strings `strftime` produces.
-/

namespace AIFI

/-! ### String helpers mirroring the Python primitives used by the code

Python string slicing, `str.lower`, `str.replace(" ", "_")` and
`str.endswith` operate on code points; `String.toList` gives the code
points of a Lean string, so the helpers below are stated on `toList`.
Python's `<` on strings is code-point lexicographic, which matches the
`<` of Lean's `String`. -/

/-- Python `s[:n]`: the first `n` code points of `s`. -/
def strTake (s : String) (n : Nat) : String :=
  String.mk (s.toList.take n)

/-- Python `s.endswith(suf)`: the last `suf.length` code points of `s`
equal `suf` (false when `s` is shorter than `suf`). -/
def strEndsWith (s suf : String) : Bool :=
  s.toList.drop (s.toList.length - suf.toList.length) == suf.toList

/-- Python `s.lower()` restricted to the ASCII range (trend names in this
code base are ASCII; `Char.toLower` agrees with Python there). -/
def pyLower (s : String) : String :=
  String.mk (s.toList.map Char.toLower)

/-- Python `s.replace(" ", "_")` for the single-character pattern used by
`update_trends_from_ai`: every space becomes an underscore. -/
def spacesToUnderscores (s : String) : String :=
  String.mk (s.toList.map (fun c => if c = ' ' then '_' else c))

/-- Lexicographic order on code-point lists, elementwise with a shorter
strict prefix sorting first — Python's `<` on strings. -/
def charListLt : List Char → List Char → Bool
  | [], [] => false
  | [], _ :: _ => true
  | _ :: _, [] => false
  | a :: as, b :: bs =>
    if a < b then true else if b < a then false else charListLt as bs

/-- Python `a < b` on strings. -/
def pyStrLt (a b : String) : Bool := charListLt a.toList b.toList

/-! ### Weekly signal ledger (`src/memory/manager.py`, lines 40-113)

A signal is an opaque payload produced upstream; it is modelled as a
`String` blob.  `days` is the insertion-ordered dict `date -> [signal]`. -/

/-- One archived week: `{"week": ..., "days": ...}` as built by
`save_daily_signals` / `rotate_weekly_signals`.  `rotate_weekly_signals`
uses `data.get("current_week")`, which may be `None`, hence `Option`. -/
structure ArchivedWeek where
  week : Option String
  days : List (String × List String)
deriving DecidableEq, Repr

/-- The `weekly_signals.json` document: `current_week`, the per-date
`days` dict, and the `archived_weeks` list. -/
structure WeeklyLedger where
  currentWeek : Option String
  days : List (String × List String)
  archivedWeeks : List ArchivedWeek
deriving DecidableEq, Repr

/-- The default document `load_weekly_signals` returns when the file is
missing, corrupt or empty. -/
def emptyLedger : WeeklyLedger :=
  { currentWeek := none, days := [], archivedWeeks := [] }

/-- Python `data["days"][date] = signals` on an insertion-ordered dict:
replace in place if the key exists, else append at the end. -/
def daysInsert : List (String × List String) → String → List String →
    List (String × List String)
  | [], d, s => [(d, s)]
  | (k, v) :: rest, d, s =>
    if k = d then (k, s) :: rest else (k, v) :: daysInsert rest d s

/-- Python `date in days` (dict key membership). -/
def daysHasKey (days : List (String × List String)) (d : String) : Bool :=
  days.any (fun kv => kv.1 == d)

/-- The rollover condition of `save_daily_signals`, line 63:
`data.get("current_week") and data["current_week"] != current_week`.
`None` and `""` are falsy in Python, so the archived push happens only
for a truthy stored week that differs from the computed one. -/
def weekChanged (cw : Option String) (nowWeek : String) : Bool :=
  match cw with
  | some w => w != "" && w != nowWeek
  | none => false

/-- Lines 63-72 of `save_daily_signals`: when the stored week is truthy
and differs from the week of "now", push the whole `days` map onto
`archived_weeks` as one unit and clear `days`.  No trimming happens on
this path. -/
def rollIfNewWeek (nowWeek : String) (l : WeeklyLedger) : WeeklyLedger :=
  if weekChanged l.currentWeek nowWeek then
    { l with
      archivedWeeks := l.archivedWeeks ++ [⟨l.currentWeek, l.days⟩],
      days := [] }
  else l

/-- `save_daily_signals(date, signals)` with the computed `current_week`
passed in as `nowWeek`: optional rollover, then `current_week` is set
and `days[date]` is assigned (last write wins for a repeated date). -/
def saveDailySignals (nowWeek date : String) (signals : List String)
    (l : WeeklyLedger) : WeeklyLedger :=
  let l1 := rollIfNewWeek nowWeek l
  { l1 with
    currentWeek := some nowWeek,
    days := daysInsert l1.days date signals }

/-- `rotate_weekly_signals()`: archive the (nonempty) `days` under the
stored `current_week`, trim the archive to its last 12 entries, and
reset `current_week`/`days`. -/
def rotateWeeklySignals (l : WeeklyLedger) : WeeklyLedger :=
  let l1 :=
    if l.days ≠ [] then
      { l with archivedWeeks := l.archivedWeeks ++ [⟨l.currentWeek, l.days⟩] }
    else l
  let arch :=
    if l1.archivedWeeks.length > 12 then
      l1.archivedWeeks.drop (l1.archivedWeeks.length - 12)
    else l1.archivedWeeks
  { currentWeek := none, days := [], archivedWeeks := arch }

/-- One operation on the weekly ledger: an `save_daily_signals` call
(with the wall-clock week it observed) or a `rotate_weekly_signals`
call. -/
inductive LedgerOp where
  | append (nowWeek date : String) (signals : List String)
  | rotate
deriving DecidableEq, Repr

/-- Run one ledger operation. -/
def runOp (l : WeeklyLedger) : LedgerOp → WeeklyLedger
  | .append w d s => saveDailySignals w d s l
  | .rotate => rotateWeeklySignals l

/-- Run a sequence of ledger operations in call order. -/
def runOps (l : WeeklyLedger) (ops : List LedgerOp) : WeeklyLedger :=
  ops.foldl runOp l

/-- Total number of signals held by a `days` map. -/
def daysTotal (days : List (String × List String)) : Nat :=
  (days.map (fun kv => kv.2.length)).sum

/-- Total number of signals held by the archive. -/
def archivedTotal (a : List ArchivedWeek) : Nat :=
  (a.map (fun w => daysTotal w.days)).sum

/-- Total number of signals held anywhere in the ledger: current `days`
plus every archived week. -/
def totalSignals (l : WeeklyLedger) : Nat :=
  daysTotal l.days + archivedTotal l.archivedWeeks

/-- One `save_daily_signals` call for the conservation analysis: the
wall-clock week observed by the call, the date argument and the batch. -/
structure AppendOp where
  nowWeek : String
  date : String
  signals : List String
deriving DecidableEq, Repr

/-- Run a sequence of `save_daily_signals` calls. -/
def runAppends (l : WeeklyLedger) (ops : List AppendOp) : WeeklyLedger :=
  ops.foldl (fun l op => saveDailySignals op.nowWeek op.date op.signals l) l

/-- A sequence of appends is overwrite-free from `l` when each call's
date is absent from the `days` map it is inserted into (i.e. after the
rollover, if any).  A repeated date inside one week overwrites the
earlier batch (last write wins), which the conservation property must
exclude. -/
def freshAppends (l : WeeklyLedger) : List AppendOp → Bool
  | [] => true
  | op :: rest =>
    !(daysHasKey (rollIfNewWeek op.nowWeek l).days op.date) &&
      freshAppends (saveDailySignals op.nowWeek op.date op.signals l) rest

/-! ### Lemmas about the weekly ledger -/

/-- Inserting a date that is not yet a key adds exactly the batch's
signals to the `days` total. -/
theorem daysTotal_insert_fresh (days : List (String × List String))
    (d : String) (s : List String) (h : daysHasKey days d = false) :
    daysTotal (daysInsert days d s) = daysTotal days + s.length := by
  induction days with
  | nil => simp [daysInsert, daysTotal]
  | cons kv rest ih =>
    obtain ⟨k, v⟩ := kv
    simp only [daysHasKey, List.any_cons, Bool.or_eq_false_iff, beq_eq_false_iff_ne,
      ne_eq] at h
    simp only [daysInsert, if_neg h.1, daysTotal, List.map_cons, List.sum_cons]
    have := ih (by simpa [daysHasKey] using h.2)
    simp only [daysTotal] at this
    omega

/-- The rollover of `save_daily_signals` moves signals but never loses
or creates any: the total is preserved. -/
theorem totalSignals_roll (w : String) (l : WeeklyLedger) :
    totalSignals (rollIfNewWeek w l) = totalSignals l := by
  unfold rollIfNewWeek
  split
  · simp only [totalSignals, daysTotal, archivedTotal, List.map_append,
      List.sum_append, List.map_cons, List.map_nil, List.sum_cons, List.sum_nil]
    omega
  · rfl

/-- A `save_daily_signals` call that does not overwrite an existing
date adds exactly the batch's signals to the ledger total. -/
theorem totalSignals_save (w d : String) (s : List String)
    (l : WeeklyLedger)
    (h : daysHasKey (rollIfNewWeek w l).days d = false) :
    totalSignals (saveDailySignals w d s l) = totalSignals l + s.length := by
  unfold saveDailySignals
  have h1 : totalSignals
      { rollIfNewWeek w l with
        currentWeek := some w,
        days := daysInsert (rollIfNewWeek w l).days d s } =
      totalSignals (rollIfNewWeek w l) + s.length := by
    simp only [totalSignals]
    rw [daysTotal_insert_fresh _ _ _ h]
    omega
  rw [h1, totalSignals_roll]

/-- `rotate_weekly_signals` always leaves at most 12 archived weeks. -/
theorem rotate_archivedWeeks_le (l : WeeklyLedger) :
    (rotateWeeklySignals l).archivedWeeks.length ≤ 12 := by
  unfold rotateWeeklySignals
  split
  · set a := l.archivedWeeks ++ [(⟨l.currentWeek, l.days⟩ : ArchivedWeek)] with ha
    by_cases h : a.length > 12
    · simp only [h, if_pos, List.length_drop]
      omega
    · simp only [if_neg h]
      omega
  · by_cases h : l.archivedWeeks.length > 12
    · simp only [h, if_pos, List.length_drop]
      omega
    · simp only [if_neg h]
      omega

/-! ### Claims C1 and C3 -/

/-- Fourteen `save_daily_signals` calls observed in fourteen distinct
wall-clock weeks: every call after the first triggers a rollover, and
none of them trims the archive. -/
def opsC1 : List LedgerOp :=
  [LedgerOp.append "2026-W01" "2026-01-05" [],
   LedgerOp.append "2026-W02" "2026-01-12" [],
   LedgerOp.append "2026-W03" "2026-01-19" [],
   LedgerOp.append "2026-W04" "2026-01-26" [],
   LedgerOp.append "2026-W05" "2026-02-02" [],
   LedgerOp.append "2026-W06" "2026-02-09" [],
   LedgerOp.append "2026-W07" "2026-02-16" [],
   LedgerOp.append "2026-W08" "2026-02-23" [],
   LedgerOp.append "2026-W09" "2026-03-02" [],
   LedgerOp.append "2026-W10" "2026-03-09" [],
   LedgerOp.append "2026-W11" "2026-03-16" [],
   LedgerOp.append "2026-W12" "2026-03-23" [],
   LedgerOp.append "2026-W13" "2026-03-30" [],
   LedgerOp.append "2026-W14" "2026-04-06" []]

/-- C1 counterexample: a sequence of `save_daily_signals` rollovers with
no explicit `rotate` grows `archived_weeks` to 13 entries, exceeding 12.
The rollover path of `save_daily_signals` (manager.py lines 63-72)
appends to `archived_weeks` without trimming; only
`rotate_weekly_signals` trims to 12. -/
theorem c1_counterexample :
    (runOps emptyLedger opsC1).archivedWeeks.length = 13 ∧ 12 < 13 := by
  constructor
  · decide
  · decide

/-- C1 amended: after any sequence of ledger operations followed by a
`rotate_weekly_signals` call, `archived_weeks` has at most 12 entries
(the trim lives only in `rotate_weekly_signals`; `save_daily_signals`
rollovers append without trimming, so the bound holds only at rotate
points). -/
theorem c1_rotate_bound (l : WeeklyLedger) (ops : List LedgerOp) :
    (rotateWeeklySignals (runOps l ops)).archivedWeeks.length ≤ 12 :=
  rotate_archivedWeeks_le (runOps l ops)

/-- Three appends: the second overwrites the first (same date, same
week), the third crosses a week boundary and triggers a rollover. -/
def opsC3 : List AppendOp :=
  [⟨"2026-W08", "2026-02-23", ["s1"]⟩,
   ⟨"2026-W08", "2026-02-23", ["s2"]⟩,
   ⟨"2026-W09", "2026-03-02", ["s3"]⟩]

/-- C3 counterexample: a sequence of `save_daily_signals` calls spanning
a week boundary in which a date is appended twice inside one week ends
with 2 signals stored though 3 were appended: the same-date re-append
overwrites the earlier batch (last write wins), so the totals are not
conserved for arbitrary sequences. -/
theorem c3_counterexample :
    totalSignals (runAppends emptyLedger opsC3) = 2 ∧
      (opsC3.map (fun op => op.signals.length)).sum = 3 := by
  constructor
  · decide
  · decide

/-- C3 amended: for every sequence of `save_daily_signals` calls in
which no call overwrites a date already present in the (post-rollover)
`days` map, the signals held in `days` plus all `archived_weeks` equal
the ledger's starting total plus everything appended: the week-boundary
rollover itself moves the whole `days` map into the archive as one unit
and loses nothing. -/
theorem c3_conservation (ops : List AppendOp) (l : WeeklyLedger)
    (h : freshAppends l ops = true) :
    totalSignals (runAppends l ops) =
      totalSignals l + (ops.map (fun op => op.signals.length)).sum := by
  induction ops generalizing l with
  | nil => simp [runAppends]
  | cons op rest ih =>
    simp only [freshAppends, Bool.and_eq_true, Bool.not_eq_true'] at h
    have hstep := totalSignals_save op.nowWeek op.date op.signals l h.1
    have hrest := ih (saveDailySignals op.nowWeek op.date op.signals l) h.2
    simp only [runAppends, List.foldl_cons] at hrest ⊢
    rw [hrest, hstep]
    simp only [List.map_cons, List.sum_cons]
    omega

/-- C3 witness: the conservation theorem applied to a concrete
overwrite-free two-append sequence crossing the W08→W09 boundary. -/
theorem c3_conservation_witness :
    freshAppends emptyLedger
        [⟨"2026-W08", "2026-02-23", ["s1", "s2"]⟩,
         ⟨"2026-W09", "2026-03-02", ["s3"]⟩] = true ∧
      totalSignals (runAppends emptyLedger
        [⟨"2026-W08", "2026-02-23", ["s1", "s2"]⟩,
         ⟨"2026-W09", "2026-03-02", ["s3"]⟩]) =
      totalSignals emptyLedger +
        (([⟨"2026-W08", "2026-02-23", ["s1", "s2"]⟩,
           ⟨"2026-W09", "2026-03-02", ["s3"]⟩] : List AppendOp).map
          (fun op => op.signals.length)).sum :=
  ⟨by decide, c3_conservation _ _ (by decide)⟩

/-! ### Trend ledger (`src/memory/manager.py`, lines 120-191)

A trend record as written by `update_trends_from_ai`.  Every trend this
code creates carries an `id` slug, so `id` is modelled as an
always-present string (the `t.get("id", t.get("name", ""))` fallback on
line 146 only matters for hand-edited files).  `trajectory` is `Option`
because `update.get("trajectory", trend.get("trajectory"))` can store
`None` when both sides lack the key. -/

structure Trend where
  id : String
  name : String
  relatedTags : List String
  trajectory : Option String
  signalCount : Int
  weeklyCounts : List Int
  keyEvents : List (String × String)
  created : String
deriving DecidableEq, Repr

/-- One `updated_trends` entry.  `trajectory`/`newKeyEvent` are `none`
when the key is absent from the update dict; an absent
`signal_count_delta` is `update.get("signal_count_delta", 0)`, i.e. 0. -/
structure TrendUpdate where
  id : String
  trajectory : Option String
  signalCountDelta : Int
  newKeyEvent : Option String
deriving DecidableEq, Repr

/-- One `new_trends` entry: `name` is a required key
(`new_trend["name"]`); the others default via `.get`. -/
structure NewTrend where
  name : String
  relatedTags : List String
  initialTrajectory : Option String
deriving DecidableEq, Repr

/-- The `{updated_trends, new_trends}` payload of one AI batch. -/
structure AIResult where
  updatedTrends : List TrendUpdate
  newTrends : List NewTrend
deriving DecidableEq, Repr

/-- The dict key used by `trends_by_id` (line 146). -/
def trendKey (t : Trend) : String := t.id

/-- Lines 156-173: the field mutations applied to one matched trend by
one `updated_trends` entry.  `trajectory` is `update.get("trajectory",
trend.get("trajectory"))`: it is replaced whenever the update carries
the key — even with an empty string — and kept only when the key is
absent.  The delta is added to `signal_count` and appended to
`weekly_counts`, which is then trimmed to its last 12 entries.  A key
event is appended only when `new_key_event` is truthy (present and
non-empty). -/
def applyFields (today : String) (u : TrendUpdate) (t : Trend) : Trend :=
  let traj := match u.trajectory with
    | some s => some s
    | none => t.trajectory
  let wc0 := t.weeklyCounts ++ [u.signalCountDelta]
  let wc := if wc0.length > 12 then wc0.drop (wc0.length - 12) else wc0
  let ke := match u.newKeyEvent with
    | some e => if e ≠ "" then t.keyEvents ++ [(today, e)] else t.keyEvents
    | none => t.keyEvents
  { t with
    trajectory := traj,
    signalCount := t.signalCount + u.signalCountDelta,
    weeklyCounts := wc,
    keyEvents := ke }

/-- Python `tid in trends_by_id`: some trend in the list has this key. -/
def containsId (ts : List Trend) (tid : String) : Bool :=
  ts.any (fun t => trendKey t == tid)

/-- Mutating the object `trends_by_id[tid]` points at: the dict
comprehension keeps the last trend with a given key, so the last
matching element of the list is updated in place. -/
def updateLastBy : List Trend → String → (Trend → Trend) → List Trend
  | [], _, _ => []
  | t :: ts, tid, f =>
    if containsId ts tid then t :: updateLastBy ts tid f
    else if trendKey t == tid then f t :: ts
    else t :: ts

/-- Lines 152-173: one `updated_trends` entry is applied when its id is
a key of the ledger, and silently dropped otherwise. -/
def applyOneUpdate (today : String) (ts : List Trend) (u : TrendUpdate) :
    List Trend :=
  if containsId ts u.id then updateLastBy ts u.id (applyFields today u) else ts

/-- Line 177: `new_trend["name"].lower().replace(" ", "_")[:40]`. -/
def deriveId (name : String) : String :=
  strTake (spacesToUnderscores (pyLower name)) 40

/-- Lines 179-188: the trend record appended for a fresh `new_trends`
proposal. -/
def mkNewTrend (today : String) (n : NewTrend) : Trend :=
  { id := deriveId n.name,
    name := n.name,
    relatedTags := n.relatedTags,
    trajectory := some (n.initialTrajectory.getD "stable"),
    signalCount := 1,
    weeklyCounts := [1],
    keyEvents := [(today, "First detected")],
    created := today }

/-- Lines 176-188: one `new_trends` entry is appended unless its derived
id is in `trends_by_id` — the index built from the ledger as it was
before the batch, never refreshed inside the loop. -/
def addNewTrend (initialKeys : List String) (today : String)
    (ts : List Trend) (n : NewTrend) : List Trend :=
  if initialKeys.contains (deriveId n.name) then ts
  else ts ++ [mkNewTrend today n]

/-- `update_trends_from_ai(ai_result)` on the `trends` list: apply every
`updated_trends` entry, then process `new_trends` against the key index
taken from the starting ledger. -/
def updateTrendsFromAI (today : String) (trends : List Trend)
    (res : AIResult) : List Trend :=
  let initialKeys := trends.map trendKey
  let afterUpdates := res.updatedTrends.foldl (applyOneUpdate today) trends
  res.newTrends.foldl (addNewTrend initialKeys today) afterUpdates

/-- The last trend of the list with the given key — the object
`trends_by_id[tid]` denotes, when it exists. -/
def lookupTrend : List Trend → String → Option Trend
  | [], _ => none
  | t :: ts, tid =>
    match lookupTrend ts tid with
    | some r => some r
    | none => if trendKey t == tid then some t else none

/-! ### Lemmas about the trend ledger -/

/-- Key membership coincides with the last-match lookup succeeding. -/
theorem containsId_eq_isSome (ts : List Trend) (tid : String) :
    containsId ts tid = (lookupTrend ts tid).isSome := by
  induction ts with
  | nil => rfl
  | cons t rest ih =>
    simp only [containsId, List.any_cons, lookupTrend] at *
    cases hr : lookupTrend rest tid with
    | some r =>
      have : rest.any (fun t => trendKey t == tid) = true := by
        rw [ih, hr]; rfl
      simp [this]
    | none =>
      have : rest.any (fun t => trendKey t == tid) = false := by
        rw [ih, hr]; rfl
      simp only [this, Bool.or_false]
      by_cases h : trendKey t == tid
      · simp [h]
      · simp [h]

/-- Updating the last match rewrites exactly the trend the lookup
returns, provided the rewrite keeps the key. -/
theorem lookupTrend_updateLastBy (ts : List Trend) (tid : String)
    (f : Trend → Trend) (t : Trend)
    (h : lookupTrend ts tid = some t)
    (hf : trendKey (f t) = trendKey t) :
    lookupTrend (updateLastBy ts tid f) tid = some (f t) := by
  induction ts with
  | nil => simp [lookupTrend] at h
  | cons t0 rest ih =>
    by_cases hc : containsId rest tid = true
    · have hsome : (lookupTrend rest tid).isSome := by
        rw [← containsId_eq_isSome]; exact hc
      obtain ⟨r, hr⟩ := Option.isSome_iff_exists.mp hsome
      have hrt : lookupTrend rest tid = some t := by
        simp only [lookupTrend, hr] at h
        rw [hr, h]
      simp only [updateLastBy, hc, if_pos, lookupTrend, ih hrt]
    · have hnone : lookupTrend rest tid = none := by
        cases hl : lookupTrend rest tid with
        | none => rfl
        | some r =>
          exfalso
          exact hc (by rw [containsId_eq_isSome, hl]; rfl)
      simp only [lookupTrend, hnone] at h
      by_cases hk : trendKey t0 == tid
      · simp only [hk, if_pos] at h
        cases h
        simp only [updateLastBy, Bool.not_eq_true] at hc ⊢
        simp only [hc, Bool.false_eq_true, if_neg, hk, if_pos, lookupTrend,
          hnone]
        have : (trendKey (f t) == tid) = true := by
          rw [hf]; exact hk
        simp [this]
      · simp [hk] at h

/-- `applyFields` never changes the id, hence never the key. -/
theorem trendKey_applyFields (today : String) (u : TrendUpdate) (t : Trend) :
    trendKey (applyFields today u t) = trendKey t := rfl

/-- A batch whose only content is one `updated_trends` entry matching an
existing trend rewrites that trend by `applyFields` and nothing else is
observable through the lookup. -/
theorem lookupTrend_single_update (today : String) (ts : List Trend)
    (u : TrendUpdate) (t : Trend)
    (h : lookupTrend ts u.id = some t) :
    lookupTrend (updateTrendsFromAI today ts ⟨[u], []⟩) u.id =
      some (applyFields today u t) := by
  have hc : containsId ts u.id = true := by
    rw [containsId_eq_isSome, h]; rfl
  simp only [updateTrendsFromAI, List.foldl_cons, List.foldl_nil,
    applyOneUpdate, hc, if_pos]
  exact lookupTrend_updateLastBy ts u.id _ t h (trendKey_applyFields today u t)

/-! ### Claims C2, C4 and C5 -/

/-- One batch proposing the same new-trend name twice. -/
def resC2 : AIResult :=
  ⟨[], [⟨"AI Agents", [], none⟩, ⟨"AI Agents", [], none⟩]⟩

/-- C2 counterexample: two `new_trends` entries of the same batch with
the same derived id both get appended — `trends_by_id` is built before
the loop and never refreshed (manager.py lines 146 and 176-188) — so
the ledger ends with two trends under the id `ai_agents` and the list
is no longer deduplicated by id. -/
theorem c2_counterexample :
    (updateTrendsFromAI "2026-04-01" [] resC2).map trendKey =
        ["ai_agents", "ai_agents"] ∧
      (updateTrendsFromAI "2026-04-01" [] resC2).length = 2 := by
  constructor
  · decide
  · decide

/-- C2 amended: a `new_trends` proposal whose derived id equals the id
of a trend that existed before the batch began appends nothing — the
batch result is identical with or without that proposal, so the trend
count is unchanged with respect to it.  (Ids introduced earlier in the
same batch are not checked; only pre-batch ids dedupe.) -/
theorem c2_preexisting_collision (today : String) (ledger : List Trend)
    (us : List TrendUpdate) (ns : List NewTrend) (n : NewTrend)
    (h : (ledger.map trendKey).contains (deriveId n.name) = true) :
    updateTrendsFromAI today ledger ⟨us, ns ++ [n]⟩ =
      updateTrendsFromAI today ledger ⟨us, ns⟩ := by
  simp only [updateTrendsFromAI, List.foldl_append, List.foldl_cons,
    List.foldl_nil]
  rw [addNewTrend, if_pos h]

/-- C2 witness: the amended theorem at a ledger already holding the id
`ai_agents` and a colliding proposal named "AI Agents". -/
theorem c2_preexisting_collision_witness :
    (([(⟨"ai_agents", "AI Agents", [], some "stable", 1, [1],
        [("2026-01-01", "First detected")], "2026-01-01"⟩ : Trend)].map
          trendKey).contains (deriveId "AI Agents") = true) ∧
      updateTrendsFromAI "2026-04-01"
          [⟨"ai_agents", "AI Agents", [], some "stable", 1, [1],
            [("2026-01-01", "First detected")], "2026-01-01"⟩]
          ⟨[], [] ++ [⟨"AI Agents", [], none⟩]⟩ =
        updateTrendsFromAI "2026-04-01"
          [⟨"ai_agents", "AI Agents", [], some "stable", 1, [1],
            [("2026-01-01", "First detected")], "2026-01-01"⟩]
          ⟨[], []⟩ :=
  ⟨by decide, c2_preexisting_collision _ _ _ _ _ (by decide)⟩

/-- C4 confirmed: two `update_trends_from_ai` calls carrying the same
`updated_trends` entry (id matching an existing trend, delta `d`) leave
the matched trend's `signal_count` at its old value plus `2 * d` — the
update is additive, not idempotent (manager.py lines 157-158). -/
theorem c4_double_update (today : String) (ts : List Trend) (tid : String)
    (t : Trend) (traj : Option String) (d : Int) (ev : Option String)
    (h : lookupTrend ts tid = some t) :
    ∃ t2,
      lookupTrend
          (updateTrendsFromAI today
            (updateTrendsFromAI today ts ⟨[⟨tid, traj, d, ev⟩], []⟩)
            ⟨[⟨tid, traj, d, ev⟩], []⟩) tid = some t2 ∧
        t2.signalCount = t.signalCount + 2 * d := by
  have h1 := lookupTrend_single_update today ts ⟨tid, traj, d, ev⟩ t h
  have h2 := lookupTrend_single_update today _ ⟨tid, traj, d, ev⟩ _ h1
  refine ⟨_, h2, ?_⟩
  simp only [applyFields]
  omega

/-- C4 witness: the double-update theorem at a one-trend ledger with
delta 3; the count goes from 5 to 11. -/
theorem c4_double_update_witness :
    (lookupTrend
        [⟨"x", "X", [], some "stable", 5, [5],
          [("2026-01-01", "First detected")], "2026-01-01"⟩] "x" =
      some ⟨"x", "X", [], some "stable", 5, [5],
        [("2026-01-01", "First detected")], "2026-01-01"⟩) ∧
      ∃ t2,
        lookupTrend
            (updateTrendsFromAI "2026-04-01"
              (updateTrendsFromAI "2026-04-01"
                [⟨"x", "X", [], some "stable", 5, [5],
                  [("2026-01-01", "First detected")], "2026-01-01"⟩]
                ⟨[⟨"x", none, 3, none⟩], []⟩)
              ⟨[⟨"x", none, 3, none⟩], []⟩) "x" = some t2 ∧
          t2.signalCount =
            (⟨"x", "X", [], some "stable", 5, [5],
              [("2026-01-01", "First detected")], "2026-01-01"⟩ : Trend).signalCount
              + 2 * 3 :=
  ⟨by decide, c4_double_update _ _ _ _ _ _ _ (by decide)⟩

/-- C5 counterexample: an `updated_trends` entry that supplies the
empty string as `trajectory` overwrites the stored value — the code
keeps the prior value only when the key is absent
(`update.get("trajectory", trend.get("trajectory"))`, manager.py line
156), not when it is empty, contradicting the claim that an empty
supplied trajectory keeps the prior value. -/
theorem c5_counterexample :
    (updateTrendsFromAI "2026-04-01"
        [⟨"x", "X", [], some "stable", 0, [], [], "2026-01-01"⟩]
        ⟨[⟨"x", some "", 0, none⟩], []⟩).map Trend.trajectory =
      [some ""] := by
  decide

/-- C5 amended: for an `updated_trends` entry matching an existing
trend, the stored `trajectory` is overwritten exactly when the update
carries the `trajectory` key — including with an empty string — and the
prior value is kept only when the key is absent. -/
theorem c5_trajectory_overwrite (today : String) (ts : List Trend)
    (tid : String) (t : Trend) (utraj : Option String) (d : Int)
    (ev : Option String) (h : lookupTrend ts tid = some t) :
    ∃ t2,
      lookupTrend
          (updateTrendsFromAI today ts ⟨[⟨tid, utraj, d, ev⟩], []⟩) tid =
          some t2 ∧
        t2.trajectory =
          (match utraj with
           | some s => some s
           | none => t.trajectory) := by
  have h1 := lookupTrend_single_update today ts ⟨tid, utraj, d, ev⟩ t h
  exact ⟨_, h1, rfl⟩

/-- C5 witness: the trajectory theorem at an update without the
trajectory key; the stored value survives. -/
theorem c5_trajectory_overwrite_witness :
    (lookupTrend
        [⟨"x", "X", [], some "stable", 0, [], [], "2026-01-01"⟩] "x" =
      some ⟨"x", "X", [], some "stable", 0, [], [], "2026-01-01"⟩) ∧
      ∃ t2,
        lookupTrend
            (updateTrendsFromAI "2026-04-01"
              [⟨"x", "X", [], some "stable", 0, [], [], "2026-01-01"⟩]
              ⟨[⟨"x", none, 1, none⟩], []⟩) "x" = some t2 ∧
          t2.trajectory =
            (match (none : Option String) with
             | some s => some s
             | none =>
               (⟨"x", "X", [], some "stable", 0, [], [],
                 "2026-01-01"⟩ : Trend).trajectory) :=
  ⟨by decide, c5_trajectory_overwrite _ _ _ _ _ _ _ (by decide)⟩

/-! ### Prediction log (`src/memory/manager.py`, lines 198-218)

A prediction is an opaque dict; it is modelled as a `String` blob.  The
`history_insights.json` document is its `predictions` list, defaulting
to `[]`. -/

/-- `save_prediction(prediction)` on the `predictions` list: append,
then keep only the last 100 entries when the list exceeds 100. -/
def savePrediction (preds : List String) (p : String) : List String :=
  let l := preds ++ [p]
  if l.length > 100 then l.drop (l.length - 100) else l

/-- A sequence of `save_prediction` calls in order. -/
def savePredictions (start : List String) (ps : List String) : List String :=
  ps.foldl savePrediction start

/-- The fold characterization: starting from at most 100 stored
predictions, a sequence of appends leaves exactly the last
`min (start + appended, 100)` entries, i.e. the concatenation with its
oldest overflow dropped. -/
theorem savePredictions_drop (ps : List String) :
    ∀ a : List String, a.length ≤ 100 →
      savePredictions a ps = (a ++ ps).drop (a.length + ps.length - 100) := by
  induction ps with
  | nil =>
    intro a ha
    have h0 : a.length - 100 = 0 := by omega
    simp [savePredictions, h0]
  | cons p ps ih =>
    intro a ha
    by_cases hfull : a.length + 1 > 100
    · have ha100 : a.length = 100 := by omega
      have hb : savePrediction a p = (a ++ [p]).drop 1 := by
        simp only [savePrediction, List.length_append, List.length_singleton,
          ha100]
        norm_num
      have hblen : (savePrediction a p).length = 100 := by
        rw [hb, List.length_drop]
        simp [ha100]
      have hstep := ih (savePrediction a p) (le_of_eq hblen)
      simp only [savePredictions, List.foldl_cons] at hstep ⊢
      rw [hstep, hblen, hb]
      rw [← List.drop_append_of_le_length (show 1 ≤ (a ++ [p]).length by simp)]
      rw [List.drop_drop]
      have hidx : 1 + (100 + ps.length - 100) = a.length + (p :: ps).length - 100 := by
        simp only [List.length_cons]
        omega
      rw [hidx, List.append_assoc, List.singleton_append]
    · have hb : savePrediction a p = a ++ [p] := by
        simp only [savePrediction, List.length_append, List.length_singleton]
        have h1 : ¬ a.length + 1 > 100 := hfull
        simp [h1]
      have hblen : (savePrediction a p).length = a.length + 1 := by
        rw [hb]; simp
      have hstep := ih (savePrediction a p) (by omega)
      simp only [savePredictions, List.foldl_cons] at hstep ⊢
      rw [hstep, hblen, hb]
      have hidx : a.length + 1 + ps.length - 100 = a.length + (p :: ps).length - 100 := by
        simp only [List.length_cons]
        omega
      rw [hidx, List.append_assoc, List.singleton_append]

/-- C6 confirmed: any sequence of `save_prediction` calls on an
initially empty log leaves exactly the newest `min (n, 100)`
predictions in their original append order — the log equals the append
sequence with its oldest overflow dropped and never exceeds 100
entries.  In particular, after 150 appends the 50 oldest are gone and
the 100 newest remain in order. -/
theorem c6_prediction_cap (ps : List String) :
    savePredictions [] ps = ps.drop (ps.length - 100) ∧
      (savePredictions [] ps).length ≤ 100 := by
  have h := savePredictions_drop ps [] (by simp)
  simp only [List.nil_append, List.length_nil, Nat.zero_add] at h
  refine ⟨h, ?_⟩
  rw [h, List.length_drop]
  omega

/-! ### Draft lifecycle store (`src/utils/draft.py`)

The `config/drafts/` directory is modelled as an insertion-ordered list
of (filename, content) pairs; a content is either a parsed draft record
or `corrupt` (a file whose read raises `JSONDecodeError`/`IOError`).
Wall-clock inputs (`datetime.now` dates/weeks/timestamps and the
30-day sweep cutoff) are explicit string parameters. -/

/-- The caller-supplied `data` dict of `save_draft`: its optional
`date`/`week`/`status` keys, plus the rest of the payload as one opaque
blob. -/
structure DraftIn where
  date : Option String
  week : Option String
  status : Option String
  payload : String
deriving DecidableEq, Repr

/-- A parsed draft file: the saved `data` spread plus the `type`,
`status` and `created_at` fields stamped by `save_draft`, and the
`updated_at` field added by `update_draft_status`. -/
structure DraftRecord where
  data : DraftIn
  type : String
  status : String
  createdAt : String
  updatedAt : Option String
deriving DecidableEq, Repr

/-- What reading a draft file yields: a parsed record, or a corrupt
file (unparseable JSON / unreadable file). -/
inductive FileContent where
  | valid (r : DraftRecord)
  | corrupt
deriving DecidableEq, Repr

/-- The drafts directory: filenames with their contents. -/
abbrev DraftStore := List (String × FileContent)

/-- Reading the file with a given name (first entry wins, as names are
unique on a file system). -/
def fsLookup : DraftStore → String → Option FileContent
  | [], _ => none
  | (n, c) :: rest, m => if n == m then some c else fsLookup rest m

/-- Writing a file: replace the named entry in place, or create it. -/
def fsWrite (fs : DraftStore) (n : String) (c : FileContent) : DraftStore :=
  match fs with
  | [] => [(n, c)]
  | (m, c0) :: rest =>
    if m == n then (m, c) :: rest else (m, c0) :: fsWrite rest n c

/-- The deletion test of `cleanup_old_drafts` (draft.py lines 126-132):
a `.json` filename whose first 10 code points form a string of length
10 (always true for these filenames) that sorts below the cutoff
date string.  For a weekly draft `YYYY-WNN_weekly.json` the slice is
`"YYYY-WNN_w"`, not the week id. -/
def draftDeletable (cutoff name : String) : Bool :=
  strEndsWith name ".json" &&
    (strTake name 10).length == 10 &&
    pyStrLt (strTake name 10) cutoff

/-- `cleanup_old_drafts(days)` with the computed cutoff date string
passed in: remove every deletable file, keep the rest. -/
def cleanupOldDrafts (cutoff : String) (fs : DraftStore) : DraftStore :=
  fs.filter (fun e => !(draftDeletable cutoff e.1))

/-- The filename `save_draft` computes (draft.py lines 28-33): the
`week`/`date` field of the data, defaulting to "now", plus the kind
suffix. -/
def draftFilename (draftType : String) (nowDate nowWeek : String)
    (data : DraftIn) : String :=
  if draftType == "weekly" then (data.week.getD nowWeek) ++ "_weekly.json"
  else (data.date.getD nowDate) ++ "_daily.json"

/-- The filename `load_draft`/`update_draft_status` compute from an
explicit date/week argument. -/
def draftFileFor (date draftType : String) : String :=
  if draftType == "weekly" then date ++ "_weekly.json"
  else date ++ "_daily.json"

/-- `save_draft(data, draft_type)` (draft.py lines 16-61), returning the
new store and the path of the draft (paths are
`DRAFTS_DIR/<filename>`; the model returns the filename).  A parseable
existing record with status `sent` or `approved` short-circuits:
nothing is written and no sweep runs.  Otherwise the record is written
with `status = data.get("status", "pending_review")` and the sweep runs
over the directory, which can also remove the freshly written file when
its own date is past the cutoff. -/
def saveDraft (nowDate nowWeek createdAt cutoff : String) (data : DraftIn)
    (draftType : String) (fs : DraftStore) : DraftStore × String :=
  let filename := draftFilename draftType nowDate nowWeek data
  let skip : Bool :=
    match fsLookup fs filename with
    | some (.valid r) => r.status == "sent" || r.status == "approved"
    | _ => false
  if skip then (fs, filename)
  else
    let newRecord : DraftRecord :=
      { data := data,
        type := draftType,
        status := data.status.getD "pending_review",
        createdAt := createdAt,
        updatedAt := none }
    (cleanupOldDrafts cutoff (fsWrite fs filename (.valid newRecord)),
      filename)

/-- `load_draft(date, draft_type)` (draft.py lines 64-90): the parsed
record, or `none` for a missing or corrupt file. -/
def loadDraft (fs : DraftStore) (date draftType : String) :
    Option DraftRecord :=
  match fsLookup fs (draftFileFor date draftType) with
  | some (.valid r) => some r
  | _ => none

/-- `update_draft_status(date, status, draft_type)` (draft.py lines
93-115), returning the new store and the boolean result: `False`
without touching the store when the draft does not load, else the
record is rewritten with the new status and an `updated_at` stamp. -/
def updateDraftStatus (updatedAt : String) (fs : DraftStore)
    (date status draftType : String) : DraftStore × Bool :=
  match loadDraft fs date draftType with
  | none => (fs, false)
  | some d =>
    (fsWrite fs (draftFileFor date draftType)
        (.valid { d with status := status, updatedAt := some updatedAt }),
      true)

/-! ### Lemmas about the draft store -/

/-- Reading back the file just written yields the written content. -/
theorem fsLookup_fsWrite_self (fs : DraftStore) (n : String)
    (c : FileContent) : fsLookup (fsWrite fs n c) n = some c := by
  induction fs with
  | nil => simp [fsWrite, fsLookup]
  | cons e rest ih =>
    obtain ⟨m, c0⟩ := e
    by_cases h : (m == n) = true
    · simp [fsWrite, h, fsLookup]
    · simp [fsWrite, h, fsLookup, ih]

/-- The sweep does not disturb the lookup of a file it cannot delete. -/
theorem fsLookup_cleanup (cutoff n : String) (fs : DraftStore)
    (h : draftDeletable cutoff n = false) :
    fsLookup (cleanupOldDrafts cutoff fs) n = fsLookup fs n := by
  induction fs with
  | nil => rfl
  | cons e rest ih =>
    obtain ⟨m, c⟩ := e
    simp only [cleanupOldDrafts] at ih ⊢
    rw [List.filter_cons]
    by_cases hm : (m == n) = true
    · have hmn : m = n := beq_iff_eq.mp hm
      subst hmn
      simp [h, fsLookup]
    · cases hdel : !(draftDeletable cutoff m) <;>
        simp [fsLookup, hm, ih, hdel]

/-- A daily draft filename built from a 10-character date is deletable
exactly when its date sorts below the cutoff. -/
theorem draftDeletable_daily (cutoff d : String) (h : d.length = 10) :
    draftDeletable cutoff (d ++ "_daily.json") = pyStrLt d cutoff := by
  have hdl : d.toList.length = 10 := h
  have happ : (d ++ "_daily.json").toList = d.toList ++ "_daily.json".toList :=
    rfl
  have htake : strTake (d ++ "_daily.json") 10 = d := by
    unfold strTake
    rw [happ, ← hdl, List.take_left]
    rfl
  have h11 : ("_daily.json".toList).length = 11 := by decide
  have h5 : (".json".toList).length = 5 := by decide
  have hends : strEndsWith (d ++ "_daily.json") ".json" = true := by
    unfold strEndsWith
    rw [happ]
    have hlen2 : (d.toList ++ "_daily.json".toList).length -
        (".json".toList).length = d.toList.length + 6 := by
      rw [List.length_append, h11, h5]
      omega
    rw [hlen2, ← List.drop_drop, List.drop_left]
    decide
  simp only [draftDeletable, htake, hends, h, beq_self_eq_true,
    Bool.true_and]

/-! ### Claims C7, C8, C9 and C10 -/

/-- C7 confirmed: a `save_draft` call whose target file holds a
parseable record with status `sent` or `approved` is a no-op — nothing
is written, no sweep runs, the store (including the payload saved
first) is unchanged byte for byte, and the existing record's path is
returned instead of raising (draft.py lines 37-46). -/
theorem c7_save_skips_published (nowDate nowWeek createdAt cutoff : String)
    (data : DraftIn) (draftType : String) (fs : DraftStore)
    (r : DraftRecord)
    (h : fsLookup fs (draftFilename draftType nowDate nowWeek data) =
      some (.valid r))
    (hs : r.status = "sent" ∨ r.status = "approved") :
    saveDraft nowDate nowWeek createdAt cutoff data draftType fs =
      (fs, draftFilename draftType nowDate nowWeek data) := by
  unfold saveDraft
  simp only [h]
  rcases hs with hs | hs <;> simp [hs]

/-- C7 witness: a store holding a sent daily draft for 2026-04-01; a
second save for the same date returns the store untouched. -/
theorem c7_save_skips_published_witness :
    (fsLookup
        [("2026-04-01_daily.json",
          FileContent.valid
            ⟨⟨some "2026-04-01", none, none, "first payload"⟩, "daily",
              "sent", "2026-04-01T08:00:00", none⟩)]
        (draftFilename "daily" "2026-04-02" "2026-W14"
          ⟨some "2026-04-01", none, none, "second payload"⟩) =
      some (.valid
        ⟨⟨some "2026-04-01", none, none, "first payload"⟩, "daily",
          "sent", "2026-04-01T08:00:00", none⟩)) ∧
      saveDraft "2026-04-02" "2026-W14" "2026-04-02T08:00:00" "2026-03-03"
          ⟨some "2026-04-01", none, none, "second payload"⟩ "daily"
          [("2026-04-01_daily.json",
            FileContent.valid
              ⟨⟨some "2026-04-01", none, none, "first payload"⟩, "daily",
                "sent", "2026-04-01T08:00:00", none⟩)] =
        ([("2026-04-01_daily.json",
            FileContent.valid
              ⟨⟨some "2026-04-01", none, none, "first payload"⟩, "daily",
                "sent", "2026-04-01T08:00:00", none⟩)],
          draftFilename "daily" "2026-04-02" "2026-W14"
            ⟨some "2026-04-01", none, none, "second payload"⟩) :=
  ⟨by decide,
    c7_save_skips_published "2026-04-02" "2026-W14" "2026-04-02T08:00:00"
      "2026-03-03" ⟨some "2026-04-01", none, none, "second payload"⟩ "daily"
      [("2026-04-01_daily.json",
        FileContent.valid
          ⟨⟨some "2026-04-01", none, none, "first payload"⟩, "daily",
            "sent", "2026-04-01T08:00:00", none⟩)]
      ⟨⟨some "2026-04-01", none, none, "first payload"⟩, "daily", "sent",
        "2026-04-01T08:00:00", none⟩
      (by decide) (Or.inl (by decide))⟩

/-- C8 confirmed: `update_draft_status` on a (period, kind) pair with no
draft file returns `False` and leaves the store unchanged — no file is
created (draft.py lines 98-100). -/
theorem c8_update_missing (updatedAt : String) (fs : DraftStore)
    (date status draftType : String)
    (h : fsLookup fs (draftFileFor date draftType) = none) :
    updateDraftStatus updatedAt fs date status draftType = (fs, false) := by
  unfold updateDraftStatus loadDraft
  simp [h]

/-- C8 witness: updating the status of a weekly draft in a store that
only holds an unrelated daily file returns `False` and changes
nothing. -/
theorem c8_update_missing_witness :
    (fsLookup
        [("2026-04-01_daily.json",
          FileContent.valid
            ⟨⟨some "2026-04-01", none, none, "p"⟩, "daily",
              "pending_review", "t", none⟩)]
        (draftFileFor "2026-W14" "weekly") = none) ∧
      updateDraftStatus "2026-04-02T09:00:00"
          [("2026-04-01_daily.json",
            FileContent.valid
              ⟨⟨some "2026-04-01", none, none, "p"⟩, "daily",
                "pending_review", "t", none⟩)]
          "2026-W14" "approved" "weekly" =
        ([("2026-04-01_daily.json",
            FileContent.valid
              ⟨⟨some "2026-04-01", none, none, "p"⟩, "daily",
                "pending_review", "t", none⟩)], false) :=
  ⟨by decide, c8_update_missing _ _ _ _ _ (by decide)⟩

/-- C9 counterexample: the sweep with cutoff 2026-03-05 leaves the
weekly draft of week 2026-W01 — early January, far older than the
cutoff, and already `sent` — in place: `filename[:10]` of
`2026-W01_weekly.json` is `"2026-W01_w"`, and `'W' > '0'..'1'` makes it
sort above every same-year date string, so the `file_date < cutoff`
test never fires for same-year weekly drafts (draft.py lines 129-131),
contradicting the claim that weekly drafts older than the cutoff are
deleted. -/
theorem c9_counterexample :
    cleanupOldDrafts "2026-03-05"
        [("2026-W01_weekly.json",
          FileContent.valid
            ⟨⟨none, some "2026-W01", none, "weekly body"⟩, "weekly",
              "sent", "2026-01-05T08:00:00", none⟩)] =
      [("2026-W01_weekly.json",
        FileContent.valid
          ⟨⟨none, some "2026-W01", none, "weekly body"⟩, "weekly",
            "sent", "2026-01-05T08:00:00", none⟩)] := by
  decide

/-- C9 amended: the sweep deletes exactly the daily drafts whose
10-character date sorts below the cutoff, regardless of status, and
keeps every daily draft at or after the cutoff; weekly drafts are not
reliably swept (their 10-character slice `YYYY-WNN_w` sorts above every
same-year date, so same-year weekly drafts always survive). -/
theorem c9_daily_sweep (cutoff d : String) (c : FileContent)
    (fs : DraftStore) (h : d.length = 10) :
    (d ++ "_daily.json", c) ∈ cleanupOldDrafts cutoff fs ↔
      ((d ++ "_daily.json", c) ∈ fs ∧ pyStrLt d cutoff = false) := by
  unfold cleanupOldDrafts
  simp [List.mem_filter, draftDeletable_daily cutoff d h]

/-- C9 witness: the daily-sweep characterization at a one-file store
holding an old sent daily draft (its date sorts below the cutoff, so
the membership on the left is falsified together with the right-hand
side). -/
theorem c9_daily_sweep_witness :
    ("2026-01-02".length = 10) ∧
      (("2026-01-02" ++ "_daily.json",
          FileContent.valid
            ⟨⟨some "2026-01-02", none, none, "p"⟩, "daily", "sent", "t",
              none⟩) ∈
          cleanupOldDrafts "2026-03-05"
            [("2026-01-02" ++ "_daily.json",
              FileContent.valid
                ⟨⟨some "2026-01-02", none, none, "p"⟩, "daily", "sent",
                  "t", none⟩)] ↔
        (("2026-01-02" ++ "_daily.json",
            FileContent.valid
              ⟨⟨some "2026-01-02", none, none, "p"⟩, "daily", "sent", "t",
                none⟩) ∈
            [("2026-01-02" ++ "_daily.json",
              FileContent.valid
                ⟨⟨some "2026-01-02", none, none, "p"⟩, "daily", "sent",
                  "t", none⟩)] ∧
          pyStrLt "2026-01-02" "2026-03-05" = false)) :=
  ⟨by decide,
    c9_daily_sweep "2026-03-05" "2026-01-02"
      (FileContent.valid
        ⟨⟨some "2026-01-02", none, none, "p"⟩, "daily", "sent", "t", none⟩)
      [("2026-01-02" ++ "_daily.json",
        FileContent.valid
          ⟨⟨some "2026-01-02", none, none, "p"⟩, "daily", "sent", "t",
            none⟩)]
      (by decide)⟩

/-- C10 confirmed: when the existing file for the computed (period,
kind) filename does not parse, the sent/approved guard is bypassed —
`save_draft` takes the write path unconditionally, replacing the
corrupt file with the fresh record (and then running the sweep); if the
filename is not itself past the sweep cutoff, reading the store back at
that filename yields the new record.  The publish-protection guarantee
therefore holds only for parseable existing records (draft.py lines
38-46). -/
theorem c10_corrupt_overwritten (nowDate nowWeek createdAt cutoff : String)
    (data : DraftIn) (draftType : String) (fs : DraftStore)
    (h : fsLookup fs (draftFilename draftType nowDate nowWeek data) =
      some .corrupt)
    (hkeep : draftDeletable cutoff
      (draftFilename draftType nowDate nowWeek data) = false) :
    saveDraft nowDate nowWeek createdAt cutoff data draftType fs =
        (cleanupOldDrafts cutoff
          (fsWrite fs (draftFilename draftType nowDate nowWeek data)
            (.valid
              { data := data,
                type := draftType,
                status := data.status.getD "pending_review",
                createdAt := createdAt,
                updatedAt := none })),
          draftFilename draftType nowDate nowWeek data) ∧
      fsLookup (saveDraft nowDate nowWeek createdAt cutoff data draftType fs).1
          (draftFilename draftType nowDate nowWeek data) =
        some (.valid
          { data := data,
            type := draftType,
            status := data.status.getD "pending_review",
            createdAt := createdAt,
            updatedAt := none }) := by
  have hbranch :
      saveDraft nowDate nowWeek createdAt cutoff data draftType fs =
        (cleanupOldDrafts cutoff
          (fsWrite fs (draftFilename draftType nowDate nowWeek data)
            (.valid
              { data := data,
                type := draftType,
                status := data.status.getD "pending_review",
                createdAt := createdAt,
                updatedAt := none })),
          draftFilename draftType nowDate nowWeek data) := by
    unfold saveDraft
    simp [h]
  refine ⟨hbranch, ?_⟩
  rw [hbranch]
  rw [fsLookup_cleanup _ _ _ hkeep, fsLookup_fsWrite_self]

/-- C10 witness: a corrupt file at `2026-04-01_daily.json` — whatever
status its unreadable content once recorded — is replaced by the fresh
`pending_review` record. -/
theorem c10_corrupt_overwritten_witness :
    (fsLookup [("2026-04-01_daily.json", FileContent.corrupt)]
        (draftFilename "daily" "2026-04-02" "2026-W14"
          ⟨some "2026-04-01", none, none, "fresh payload"⟩) =
      some .corrupt) ∧
      (draftDeletable "2026-03-03"
        (draftFilename "daily" "2026-04-02" "2026-W14"
          ⟨some "2026-04-01", none, none, "fresh payload"⟩) = false) ∧
      (saveDraft "2026-04-02" "2026-W14" "2026-04-02T08:00:00" "2026-03-03"
          ⟨some "2026-04-01", none, none, "fresh payload"⟩ "daily"
          [("2026-04-01_daily.json", FileContent.corrupt)] =
        (cleanupOldDrafts "2026-03-03"
          (fsWrite [("2026-04-01_daily.json", FileContent.corrupt)]
            (draftFilename "daily" "2026-04-02" "2026-W14"
              ⟨some "2026-04-01", none, none, "fresh payload"⟩)
            (.valid
              { data := ⟨some "2026-04-01", none, none, "fresh payload"⟩,
                type := "daily",
                status :=
                  (⟨some "2026-04-01", none, none,
                    "fresh payload"⟩ : DraftIn).status.getD "pending_review",
                createdAt := "2026-04-02T08:00:00",
                updatedAt := none })),
          draftFilename "daily" "2026-04-02" "2026-W14"
            ⟨some "2026-04-01", none, none, "fresh payload"⟩) ∧
        fsLookup
            (saveDraft "2026-04-02" "2026-W14" "2026-04-02T08:00:00"
              "2026-03-03"
              ⟨some "2026-04-01", none, none, "fresh payload"⟩ "daily"
              [("2026-04-01_daily.json", FileContent.corrupt)]).1
            (draftFilename "daily" "2026-04-02" "2026-W14"
              ⟨some "2026-04-01", none, none, "fresh payload"⟩) =
          some (.valid
            { data := ⟨some "2026-04-01", none, none, "fresh payload"⟩,
              type := "daily",
              status :=
                (⟨some "2026-04-01", none, none,
                  "fresh payload"⟩ : DraftIn).status.getD "pending_review",
              createdAt := "2026-04-02T08:00:00",
              updatedAt := none })) :=
  ⟨by decide, by decide,
    c10_corrupt_overwritten "2026-04-02" "2026-W14" "2026-04-02T08:00:00"
      "2026-03-03" ⟨some "2026-04-01", none, none, "fresh payload"⟩ "daily"
      [("2026-04-01_daily.json", FileContent.corrupt)]
      (by decide) (by decide)⟩

end AIFI
